import Mathlib

/-
Verification development for the remotetrash VS Code extension
(source: src/extension.ts).

The extension is a thin orchestration layer: it resolves the files targeted
by the `remotetrash.delete` command, checks that a trash CLI tool is
reachable, asks the user for confirmation, accumulates one rename plus one
metadata-file creation per target into a single WorkspaceEdit, applies the
edit, closes the tabs of the deleted files, and reports the outcome.

The embedding below models:
  - the JavaScript/Node string primitives the source calls
    (String.prototype.split / trim / join, Number → string interpolation,
    path.basename, path.extname, Date.prototype.toISOString);
  - the pure name-collision algorithm getUniqueTrashName;
  - the command handler as a function from a host environment (clipboard
    content, configuration of the host, user responses, file system
    listing of the trash directory, open tabs) to the ordered list of
    observable host effects plus the final clipboard text.
-/

/-! ### Models of the JavaScript / Node string primitives -/

/-- Helper for `jsSplitChar`: walks the character list, cutting at each
occurrence of the separator.  `acc` holds the (reversed) characters of the
current segment. -/
def splitCharAux (sep : Char) : List Char → List Char → List String
  | [], acc => [String.mk acc.reverse]
  | c :: rest, acc =>
    if c = sep then String.mk acc.reverse :: splitCharAux sep rest []
    else splitCharAux sep rest (c :: acc)

/-- Models JavaScript `str.split(sep)` for a one-character separator:
the list of segments between occurrences of `sep` (empty segments
included), always non-empty. -/
def jsSplitChar (sep : Char) (s : String) : List String :=
  splitCharAux sep s.data []

/-- Models JavaScript `arr.join(sep)` for an array of strings. -/
def jsJoin (sep : String) : List String → String
  | [] => ""
  | [s] => s
  | s :: rest => s ++ sep ++ jsJoin sep rest

/-- Common whitespace characters trimmed by JavaScript
`String.prototype.trim` (restricted to the ASCII whitespace actually
relevant to path lists). -/
def jsIsWhitespace (c : Char) : Bool :=
  c = ' ' || c = '\t' || c = '\n' || c = '\r'

/-- Models JavaScript `str.trim()`. -/
def jsTrim (s : String) : String :=
  String.mk (((s.data.dropWhile jsIsWhitespace).reverse.dropWhile jsIsWhitespace).reverse)

/-- Models JavaScript `str.split(".")[0]`: the prefix of `s` before its
first `'.'` (all of `s` when it has no dot). -/
def jsSplitFirstDot (s : String) : String :=
  (jsSplitChar '.' s).headD ""

/-- Models JavaScript `str.split("/").pop()`: the suffix of `s` after its
last `'/'` (all of `s` when it has no slash). -/
def jsSplitPop (s : String) : String :=
  (jsSplitChar '/' s).getLastD ""

/-- Fuel-driven digit rendering: prepends the base-10 digits of `n` to
`acc`, recursing on `n / 10`.  Mirrors both the JavaScript number → string
conversion used by template literals and Lean core's own rendering. -/
def natToCharsAux : Nat → Nat → List Char → List Char
  | 0, _, acc => acc
  | fuel + 1, n, acc =>
    let d := Nat.digitChar (n % 10)
    if n / 10 = 0 then d :: acc else natToCharsAux fuel (n / 10) (d :: acc)

/-- Models the JavaScript conversion of a non-negative integer to its
base-10 string (as performed by template literals such as
`` `${counter}` `` in the source). -/
def jsNatToString (n : Nat) : String :=
  String.mk (natToCharsAux (n + 1) n [])

/-- Proof-side characterization of the base-10 digit list of `n`
(most significant digit first). -/
def natChars (n : Nat) : List Char :=
  if n < 10 then [Nat.digitChar n]
  else natChars (n / 10) ++ [Nat.digitChar (n % 10)]
termination_by n
decreasing_by exact Nat.div_lt_self (by omega) (by omega)

/-- Numeric value of a decimal digit character. -/
def digitVal (c : Char) : Nat := c.toNat - 48

/-- Models Node `path.basename(p)` (POSIX, one-argument form): trailing
slashes are dropped, then the part after the last remaining slash is
returned. -/
def posixBasename (s : String) : String :=
  let t := String.mk ((s.data.reverse.dropWhile (fun c => c = '/')).reverse)
  if t = "" then (if s = "" then "" else "/")
  else (jsSplitChar '/' t).getLastD t

/-- Index of the last `'.'` in a character list, if any. -/
def lastDotIdx (l : List Char) : Option Nat :=
  match l.reverse.findIdx? (fun c => c = '.') with
  | none => none
  | some k => some (l.length - 1 - k)

/-- Models Node `path.extname(p)` (POSIX) for a slash-free input — which
is the only way the source applies it, always on a `path.basename` result:
the segment from the last dot to the end, except that a leading dot (a
dotfile), a dot-free name, and the name `".."` have no extension. -/
def extnameModel (s : String) : String :=
  match lastDotIdx s.data with
  | none => ""
  | some 0 => ""
  | some (i + 1) => if s = ".." then "" else String.mk (s.data.drop (i + 1))

/-- Models Node `path.basename(p, suffix)` (POSIX) for a slash-free
input: the suffix is removed when it is present, non-empty, and not the
whole name. -/
def posixBasenameSuffix (s suffix : String) : String :=
  if suffix.data ≠ [] ∧ suffix.data ≠ s.data ∧ suffix.data.isSuffixOf s.data
  then String.mk (s.data.take (s.data.length - suffix.data.length))
  else s

/-! ### Models of the host date primitive -/

/-- A UTC calendar date-time as exposed by a JavaScript `Date`. -/
structure DateUTC where
  year : Nat
  month : Nat
  day : Nat
  hour : Nat
  minute : Nat
  second : Nat
  ms : Nat
  deriving Repr, DecidableEq

/-- The character list of `Date.prototype.toISOString()` output,
`YYYY-MM-DDTHH:mm:ss.sssZ`, for years 0–9999 (each field zero-padded to
its fixed width). -/
def isoChars (d : DateUTC) : List Char :=
  [Nat.digitChar (d.year / 1000 % 10), Nat.digitChar (d.year / 100 % 10),
   Nat.digitChar (d.year / 10 % 10), Nat.digitChar (d.year % 10), '-',
   Nat.digitChar (d.month / 10 % 10), Nat.digitChar (d.month % 10), '-',
   Nat.digitChar (d.day / 10 % 10), Nat.digitChar (d.day % 10), 'T',
   Nat.digitChar (d.hour / 10 % 10), Nat.digitChar (d.hour % 10), ':',
   Nat.digitChar (d.minute / 10 % 10), Nat.digitChar (d.minute % 10), ':',
   Nat.digitChar (d.second / 10 % 10), Nat.digitChar (d.second % 10), '.',
   Nat.digitChar (d.ms / 100 % 10), Nat.digitChar (d.ms / 10 % 10),
   Nat.digitChar (d.ms % 10), 'Z']

/-- Models `Date.prototype.toISOString()` for years 0–9999. -/
def toISOStringModel (d : DateUTC) : String :=
  String.mk (isoChars d)

/-- The seconds-precision prefix `YYYY-MM-DDTHH:mm:ss` of the ISO string
of `d` — what the source's `toISOString().split(".")[0]` is meant to
produce. -/
def secondsStamp (d : DateUTC) : String :=
  String.mk (isoChars d |>.take 19)

/-- Decides whether a string is a well-formed ISO-8601 timestamp at
seconds precision with no fractional part: exactly
`YYYY-MM-DDTHH:mm:ss`. -/
def wellFormedSecondsStamp (s : String) : Bool :=
  match s.data with
  | [y1, y2, y3, y4, s1, mo1, mo2, s2, d1, d2, t1,
     h1, h2, s3, mi1, mi2, s4, se1, se2] =>
    y1.isDigit && y2.isDigit && y3.isDigit && y4.isDigit && s1 = '-' &&
    mo1.isDigit && mo2.isDigit && s2 = '-' && d1.isDigit && d2.isDigit &&
    t1 = 'T' && h1.isDigit && h2.isDigit && s3 = ':' &&
    mi1.isDigit && mi2.isDigit && s4 = ':' && se1.isDigit && se2.isDigit
  | _ => false

/-! ### Embedding of src/extension.ts -/

/-- A `vscode.Uri` reduced to the one field the source reads, `fsPath`.
`vscode.Uri.file(p)` is modelled as `Uri.mk p`. -/
structure Uri where
  fsPath : String
  deriving Repr, DecidableEq

/-- Models `vscode.Uri.toString()` for file URIs, used by the source only
for equality comparison between a target and a tab's resource. -/
def Uri.toStr (u : Uri) : String := "file://" ++ u.fsPath

/-- The two kinds of operations the source puts into its
`vscode.WorkspaceEdit`: `edit.renameFile(src, dst, overwrite)` and
`edit.createFile(uri, contents, overwrite)` (contents kept as text). -/
inductive EditOp where
  | renameFile (src : Uri) (dst : Uri) (overwrite : Bool)
  | createFile (uri : Uri) (contents : String) (overwrite : Bool)
  deriving Repr, DecidableEq

/-- Observable host effects of one handler invocation, in order.
`readDir` records the `workspace.fs.readDirectory` of the trash files
directory performed by each `deleteWithWorkspaceEdit` call; `applyEdit`
records `workspace.applyEdit` together with the success value the host
returned; `closeTabs` records the single batched
`window.tabGroups.close` request. -/
inductive Effect where
  | showError (msg : String)
  | showWarning (msg : String) (modal : Bool) (items : List String)
  | showInfo (msg : String)
  | execCmd (cmd : String)
  | executeCommand (cmd : String)
  | readDir (dir : String)
  | applyEdit (ops : List EditOp) (success : Bool)
  | closeTabs (uris : List Uri)
  deriving Repr, DecidableEq

/-- Host-side inputs of one invocation: everything the environment
answers when the handler calls out. `copyFilePathResult = some s` means
the `copyFilePath` command and the subsequent clipboard read succeeded
and the clipboard now holds `s`; `none` means that try-block threw
(clipboard unchanged). `stepFails i = some msg` means the i-th
`deleteWithWorkspaceEdit` call throws an error with message `msg` (for
example a failing `fs.readDirectory`). `trashDirListing` is the on-disk
content of the trash files directory, which pending (unapplied)
workspace edits do not change. -/
structure Env where
  clipboardInit : String
  copyFilePathResult : Option String
  trashInstalled : Bool
  confirmResponse : Option String
  stepFails : Nat → Option String
  trashDirListing : List String
  homeDir : String
  nowIso : String
  applyEditSucceeds : Bool
  tabGroups : List (List (Option Uri))

/-- Result of one handler invocation: the ordered host effects and the
text content of the clipboard after the handler returned. -/
structure RunResult where
  effects : List Effect
  clipboardFinal : String
  deriving Repr

/-- The command string `checkTrashInstalled` executes
(src/extension.ts line 11) — hardcoded, independent of any
configuration. -/
def checkTrashInstalledCmd : String := "which trash"

/-- The command string `deleteWithTrash` executes for a file
(src/extension.ts line 23) — hardcoded `trash`, independent of any
configuration. (This function is present in the source but never called
by the handler.) -/
def deleteWithTrashCmd (fsPath : String) : String :=
  "trash \"" ++ fsPath ++ "\""

/-- Modelled from the spec: the command a configuration-honoring
availability check would run for a configured tool reference `c`
("determine reachability by attempting to resolve it as an executable on
the search path"). -/
def specCheckCmd (c : String) : String := "which " ++ c

/-- Modelled from the spec: the invocation `<trashTool> "<absolute-path>"`
a configuration-honoring implementation would run. -/
def specInvokeCmd (c fsPath : String) : String :=
  c ++ " \"" ++ fsPath ++ "\""

/-- Models `getTrashPaths` (src/extension.ts lines 39–47):
`<home>/.local/share/Trash/files` and `<home>/.local/share/Trash/info`. -/
structure TrashPaths where
  filesDir : String
  infoDir : String
  deriving Repr, DecidableEq

/-- Models `getTrashPaths` for a home directory without trailing slash. -/
def getTrashPaths (homeDir : String) : TrashPaths :=
  ⟨homeDir ++ "/.local/share/Trash/files", homeDir ++ "/.local/share/Trash/info"⟩

/-- The candidate name `` `${nameWithoutExt}.${counter}${ext}` `` tried by
the while loop of `getUniqueTrashName` (src/extension.ts line 78). -/
def insertCounterName (nameWithoutExt ext : String) (counter : Nat) : String :=
  nameWithoutExt ++ "." ++ jsNatToString counter ++ ext

/-- The while loop of `getUniqueTrashName` (src/extension.ts lines 76–83),
made total with explicit fuel: tries successive counters until a candidate
name is not among the existing names. -/
def trashNameLoop (nameWithoutExt ext : String) (existingNames : List String) :
    Nat → Nat → Option String
  | _, 0 => none
  | counter, fuel + 1 =>
    let newName := insertCounterName nameWithoutExt ext counter
    if newName ∈ existingNames then
      trashNameLoop nameWithoutExt ext existingNames (counter + 1) fuel
    else some newName

/-- Models `getUniqueTrashName` (src/extension.ts lines 65–84).  The
JavaScript `Set<string>` of existing names is modelled by a list with
membership.  The source's unbounded while loop is run with
`existingNames.length + 1` fuel, which is proved sufficient below
(`trashNameLoop_total`); the `getD` default is never reached. -/
def getUniqueTrashName (baseName : String) (existingNames : List String) : String :=
  if baseName ∈ existingNames then
    (trashNameLoop (posixBasenameSuffix baseName (extnameModel baseName))
      (extnameModel baseName) existingNames 2 (existingNames.length + 1)).getD baseName
  else baseName

/-- The `.trashinfo` sidecar text (src/extension.ts lines 110–115):
`["[Trash Info]", "Path=" + fsPath, "DeletionDate=" + iso.split(".")[0], ""]`
joined with newlines. -/
def sidecarContent (fsPath nowIso : String) : String :=
  jsJoin "\n" ["[Trash Info]", "Path=" ++ fsPath,
    "DeletionDate=" ++ jsSplitFirstDot nowIso, ""]

/-- Models `deleteWithWorkspaceEdit` (src/extension.ts lines 86–122) for
one file: reads the trash files directory (recorded as an effect), picks
a collision-free name against that on-disk listing only, and produces the
rename plus sidecar-creation operations appended to the shared
WorkspaceEdit, both with `overwrite: false`. -/
def deleteWithWorkspaceEdit (env : Env) (u : Uri) : List Effect × List EditOp :=
  let tp := getTrashPaths env.homeDir
  let fileName := posixBasename u.fsPath
  let trashName := getUniqueTrashName fileName env.trashDirListing
  ([Effect.readDir tp.filesDir],
   [EditOp.renameFile u (Uri.mk (tp.filesDir ++ "/" ++ trashName)) false,
    EditOp.createFile (Uri.mk (tp.infoDir ++ "/" ++ trashName ++ ".trashinfo"))
      (sidecarContent u.fsPath env.nowIso) false])

/-- Error message shown when the clipboard fallback yields nothing or
throws (src/extension.ts lines 152–155 and 158–161). -/
def errNoFilesLong : String :=
  "No files selected for deletion. Please select a file in the explorer."

/-- Error message shown when the resolved list is empty
(src/extension.ts line 166). -/
def errNoFiles : String := "No files selected for deletion"

/-- Warning shown when the trash tool is unreachable
(src/extension.ts lines 175–177). -/
def warnNotInstalled : String :=
  "trash-cli is not installed. Would you like to install it now?"

/-- The confirmation message (src/extension.ts lines 183–189). -/
def confirmMessage (files : List Uri) : String :=
  if files.length = 1 then
    "Are you sure you want to delete '" ++
      jsJoin ", " (files.map (fun f => jsSplitPop f.fsPath)) ++ "'?"
  else
    "Are you sure you want to delete " ++ jsNatToString files.length ++ " items?"

/-- The success message (src/extension.ts lines 243–245). -/
def successMessage (files : List Uri) : String :=
  "Successfully moved " ++ jsNatToString files.length ++ " item(s) to trash"

/-- Outcome of target resolution (src/extension.ts lines 131–163):
either the handler already returned (with the effects it showed), or it
continues with a file list.  Both carry the clipboard text at that
point. -/
inductive ResolveOut where
  | failed (effects : List Effect) (clip : String)
  | ok (files : List Uri) (effects : List Effect) (clip : String)

/-- The keybinding fallback (src/extension.ts lines 142–162): run
`copyFilePath`, read the clipboard, and split its content into one
trimmed path per non-blank line.  The source never saves or restores the
previous clipboard text, so on success the clipboard keeps the copied
path list. -/
def clipboardFallback (env : Env) : ResolveOut :=
  match env.copyFilePathResult with
  | none =>
    ResolveOut.failed [Effect.executeCommand "copyFilePath",
      Effect.showError errNoFilesLong] env.clipboardInit
  | some s =>
    if s = "" then
      ResolveOut.failed [Effect.executeCommand "copyFilePath",
        Effect.showError errNoFilesLong] s
    else
      ResolveOut.ok
        (((jsSplitChar '\n' s).filter (fun p => ¬ jsTrim p = "")).map
          (fun p => Uri.mk (jsTrim p)))
        [Effect.executeCommand "copyFilePath"] s

/-- Target resolution (src/extension.ts lines 131–163): an explicit
non-empty uri list wins, else a single explicit uri, else the clipboard
fallback. -/
def resolveTargets (env : Env) (uriArg : Option Uri) (urisArg : Option (List Uri)) :
    ResolveOut :=
  match urisArg with
  | some uris =>
    if 0 < uris.length then ResolveOut.ok uris [] env.clipboardInit
    else
      match uriArg with
      | some u => ResolveOut.ok [u] [] env.clipboardInit
      | none => clipboardFallback env
  | none =>
    match uriArg with
    | some u => ResolveOut.ok [u] [] env.clipboardInit
    | none => clipboardFallback env

/-- The per-file loop inside `withProgress` (src/extension.ts lines
211–215): calls `deleteWithWorkspaceEdit` for each file in order,
accumulating edit operations into the one shared edit; the first throwing
call aborts the loop and its message propagates to the handler's catch. -/
def batchLoop (env : Env) : List Uri → Nat → List Effect × Except String (List EditOp)
  | [], _ => ([], Except.ok [])
  | f :: rest, i =>
    let step := deleteWithWorkspaceEdit env f
    match env.stepFails i with
    | some msg => (step.1, Except.error msg)
    | none =>
      match batchLoop env rest (i + 1) with
      | (es, Except.error m) => (step.1 ++ es, Except.error m)
      | (es, Except.ok more) => (step.1 ++ es, Except.ok (step.2 ++ more))

/-- Application of the accumulated edit and the tail of the try block
(src/extension.ts lines 218–245): `applyEdit`, throwing when the host
reports failure; then tab collection and one batched close (whose result
the source ignores); then the success message. -/
def afterApply (env : Env) (files : List Uri) (effs : List Effect) (clip : String)
    (ops : List EditOp) : RunResult :=
  if env.applyEditSucceeds then
    let tabs := (env.tabGroups.flatMap id).filterMap (fun t =>
      match t with
      | some tu => if files.any (fun f => f.toStr = tu.toStr) then some tu else none
      | none => none)
    let effs2 := effs ++ [Effect.applyEdit ops true]
    let effs3 := if tabs.length = 0 then effs2 else effs2 ++ [Effect.closeTabs tabs]
    ⟨effs3 ++ [Effect.showInfo (successMessage files)], clip⟩
  else
    ⟨effs ++ [Effect.applyEdit ops false,
      Effect.showError "Failed to apply workspace edit"], clip⟩

/-- The try/catch around the batch (src/extension.ts lines 202–250): a
throwing per-file step surfaces exactly one error message and nothing is
applied. -/
def runBatch (env : Env) (files : List Uri) (effs : List Effect) (clip : String) :
    RunResult :=
  match batchLoop env files 0 with
  | (stepEffs, Except.error msg) => ⟨effs ++ stepEffs ++ [Effect.showError msg], clip⟩
  | (stepEffs, Except.ok ops) => afterApply env files (effs ++ stepEffs) clip ops

/-- The confirmation gate (src/extension.ts lines 191–199): a modal
warning with the single item "Move to Trash"; any other response returns
immediately. -/
def afterConfirmGate (env : Env) (files : List Uri) (effs : List Effect)
    (clip : String) : RunResult :=
  if env.confirmResponse = some "Move to Trash" then runBatch env files effs clip
  else ⟨effs, clip⟩

/-- The handler after target resolution (src/extension.ts lines 165–250):
empty-list check, `checkTrashInstalled` (which runs the hardcoded
`which trash`), unreachable-tool warning, then the confirmation gate. -/
def afterResolve (env : Env) (files : List Uri) (effs0 : List Effect)
    (clip : String) : RunResult :=
  if files.length = 0 then
    ⟨effs0 ++ [Effect.showError errNoFiles], clip⟩
  else if env.trashInstalled = false then
    ⟨effs0 ++ [Effect.execCmd checkTrashInstalledCmd,
      Effect.showWarning warnNotInstalled false []], clip⟩
  else
    afterConfirmGate env files
      (effs0 ++ [Effect.execCmd checkTrashInstalledCmd,
        Effect.showWarning (confirmMessage files) true ["Move to Trash"]]) clip

/-- The whole `remotetrash.delete` handler (src/extension.ts lines
129–252).  `closeResponse` is the host's answer to the batched tab-close
request; the source ignores that value (line 240), so it does not occur
in the body. -/
def remotetrashDelete (env : Env) (closeResponse : Bool) (uriArg : Option Uri)
    (urisArg : Option (List Uri)) : RunResult :=
  match resolveTargets env uriArg urisArg with
  | ResolveOut.failed effs clip => ⟨effs, clip⟩
  | ResolveOut.ok files effs clip => afterResolve env files effs clip

/-! ### Observers on run results -/

/-- Effects that move, create or otherwise change user-visible state:
the edit application and tab closing. -/
def isDestructiveEffect : Effect → Bool
  | Effect.applyEdit _ _ => true
  | Effect.closeTabs _ => true
  | _ => false

/-- No destructive effect occurs in the list. -/
def noDestructive (effs : List Effect) : Bool :=
  effs.all (fun e => !isDestructiveEffect e)

/-- The error messages surfaced to the user, in order. -/
def errorMessages (effs : List Effect) : List String :=
  effs.filterMap (fun e => match e with | Effect.showError m => some m | _ => none)

/-- How many per-file trash-directory reads (= `deleteWithWorkspaceEdit`
entries) happened. -/
def readDirCount (effs : List Effect) : Nat :=
  (effs.filter (fun e => match e with | Effect.readDir _ => true | _ => false)).length

/-- The sources of the rename operations in an edit. -/
def renameSources (ops : List EditOp) : List Uri :=
  ops.filterMap (fun op => match op with
    | EditOp.renameFile src _ _ => some src
    | _ => none)

/-- The base names the renames store files under in the trash. -/
def renameDestNames (ops : List EditOp) : List String :=
  ops.filterMap (fun op => match op with
    | EditOp.renameFile _ dst _ => some (posixBasename dst.fsPath)
    | _ => none)

/-- The files actually moved during the run: rename sources of an edit
the host reported as successfully applied. -/
def movedSources (effs : List Effect) : List Uri :=
  effs.flatMap (fun e => match e with
    | Effect.applyEdit ops true => renameSources ops
    | _ => [])

/-- The trash-side names assigned by the run's edit (whether or not the
host managed to apply it). -/
def storedNames (effs : List Effect) : List String :=
  effs.flatMap (fun e => match e with
    | Effect.applyEdit ops _ => renameDestNames ops
    | _ => [])

/-! ### Concrete scenarios used as test inputs -/

/-- Shared sample timestamp, the host's `toISOString()` at deletion time. -/
def isoSample : String := "2024-05-06T07:08:09.123Z"

def uOne : Uri := Uri.mk "/tmp/one.txt"

def uTwo : Uri := Uri.mk "/tmp/two.txt"

def uThree : Uri := Uri.mk "/tmp/three.txt"

/-- Keybinding invocation: clipboard initially holds "X", the explorer
selection copied by `copyFilePath` is `/tmp/a.txt`, everything succeeds. -/
def envClipboard : Env :=
  ⟨"X", some "/tmp/a.txt", true, some "Move to Trash", fun _ => none, [],
   "/root", isoSample, true, []⟩

/-- Three-file batch whose second `deleteWithWorkspaceEdit` call throws. -/
def envFailSecond : Env :=
  ⟨"X", none, true, some "Move to Trash",
   fun i => if i = 1 then some "EACCES: permission denied, scandir" else none,
   [], "/root", isoSample, true, []⟩

/-- Trash files directory already holds `note.txt`; all steps succeed. -/
def envCollision : Env :=
  ⟨"X", none, true, some "Move to Trash", fun _ => none, ["note.txt"],
   "/root", isoSample, true, []⟩

/-- A tab is open on `/tmp/two.txt`; all steps succeed. -/
def envTabOpen : Env :=
  ⟨"X", none, true, some "Move to Trash", fun _ => none, [],
   "/root", isoSample, true, [[some uTwo]]⟩

/-- The trash tool is unreachable. -/
def envNoTool : Env :=
  ⟨"X", none, false, none, fun _ => none, [], "/root", isoSample, true, []⟩

/-- The user dismisses the confirmation dialog (no button chosen). -/
def envDismissed : Env :=
  ⟨"X", none, true, none, fun _ => none, [], "/root", isoSample, true, []⟩

def dateSample : DateUTC := ⟨2024, 5, 6, 7, 8, 9, 123⟩

/-! ### Digit and number-rendering lemmas -/

theorem strData_append (a b : String) : (a ++ b).data = a.data ++ b.data := rfl

theorem digitChar_ne_dot (n : Nat) : Nat.digitChar n ≠ '.' := by
  rcases n with _|_|_|_|_|_|_|_|_|_|_|_|_|_|_|_|n
  all_goals try decide
  unfold Nat.digitChar
  repeat rw [if_neg (by omega)]
  decide

theorem digitVal_digitChar (k : Nat) (h : k < 10) :
    digitVal (Nat.digitChar k) = k := by
  interval_cases k <;> rfl

theorem isDigit_digitChar (k : Nat) (h : k < 10) :
    (Nat.digitChar k).isDigit = true := by
  interval_cases k <;> rfl

theorem isDigit_digitChar_mod (n : Nat) :
    (Nat.digitChar (n % 10)).isDigit = true :=
  isDigit_digitChar (n % 10) (Nat.mod_lt _ (by omega))

theorem digitChar_inj_of_lt (a b : Nat) (ha : a < 10) (hb : b < 10)
    (h : Nat.digitChar a = Nat.digitChar b) : a = b := by
  have := congrArg digitVal h
  rwa [digitVal_digitChar a ha, digitVal_digitChar b hb] at this

theorem natChars_of_lt (n : Nat) (h : n < 10) :
    natChars n = [Nat.digitChar n] := by
  rw [natChars, if_pos h]

theorem natChars_of_ge (n : Nat) (h : ¬ n < 10) :
    natChars n = natChars (n / 10) ++ [Nat.digitChar (n % 10)] := by
  conv_lhs => rw [natChars]
  rw [if_neg h]

theorem natChars_ne_nil (n : Nat) : natChars n ≠ [] := by
  by_cases h : n < 10
  · rw [natChars_of_lt n h]; simp
  · rw [natChars_of_ge n h]; simp

theorem natToCharsAux_eq (fuel : Nat) :
    ∀ n acc, n < fuel → natToCharsAux fuel n acc = natChars n ++ acc := by
  induction fuel with
  | zero => intro n acc h; omega
  | succ fuel ih =>
    intro n acc h
    simp only [natToCharsAux]
    by_cases h10 : n / 10 = 0
    · have hn : n < 10 := (Nat.div_eq_zero_iff (by omega)).mp h10
      rw [if_pos h10, natChars_of_lt n hn, Nat.mod_eq_of_lt hn]
      simp
    · have hn : ¬ n < 10 := by
        intro hlt
        exact h10 ((Nat.div_eq_zero_iff (by omega)).mpr hlt)
      have hpos : 0 < n := by omega
      have hlt : n / 10 < n := Nat.div_lt_self hpos (by omega)
      have hrec : n / 10 < fuel := by omega
      rw [if_neg h10, ih (n / 10) _ hrec, natChars_of_ge n hn]
      simp

theorem jsNatToString_eq (n : Nat) : jsNatToString n = String.mk (natChars n) := by
  unfold jsNatToString
  rw [natToCharsAux_eq (n + 1) n [] (by omega)]
  simp

theorem natChars_inj : ∀ m n : Nat, natChars m = natChars n → m = n := by
  intro m
  induction m using Nat.strong_induction_on with
  | _ m ih =>
    intro n h
    by_cases hm : m < 10 <;> by_cases hn : n < 10
    · rw [natChars_of_lt m hm, natChars_of_lt n hn] at h
      simp only [List.cons.injEq] at h
      exact digitChar_inj_of_lt m n hm hn h.1
    · rw [natChars_of_lt m hm, natChars_of_ge n hn] at h
      have := congrArg List.length h
      simp at this
      exact absurd this (natChars_ne_nil _)
    · rw [natChars_of_ge m hm, natChars_of_lt n hn] at h
      have := congrArg List.length h
      simp at this
      exact absurd this (natChars_ne_nil _)
    · rw [natChars_of_ge m hm, natChars_of_ge n hn] at h
      have hrev := congrArg List.reverse h
      simp only [List.reverse_append, List.reverse_cons, List.reverse_nil,
        List.nil_append, List.singleton_append, List.cons.injEq] at hrev
      have hmod := digitChar_inj_of_lt (m % 10) (n % 10)
        (Nat.mod_lt _ (by omega)) (Nat.mod_lt _ (by omega)) hrev.1
      have htail := congrArg List.reverse hrev.2
      simp only [List.reverse_reverse] at htail
      have hdivlt : m / 10 < m := Nat.div_lt_self (by omega) (by omega)
      have hdiv := ih (m / 10) hdivlt (n / 10) htail
      omega

theorem jsNatToString_inj (m n : Nat) (h : jsNatToString m = jsNatToString n) :
    m = n := by
  rw [jsNatToString_eq, jsNatToString_eq] at h
  exact natChars_inj m n (congrArg String.data h)

theorem insertCounterName_inj (pre ext : String) (a b : Nat)
    (h : insertCounterName pre ext a = insertCounterName pre ext b) : a = b := by
  unfold insertCounterName at h
  have hd := congrArg String.data h
  simp only [strData_append] at hd
  have h1 := List.append_cancel_right hd
  have h2 := List.append_cancel_left h1
  exact jsNatToString_inj a b (by
    apply String.ext
    exact h2)

/-! ### Collision-loop lemmas -/

theorem trashNameLoop_none (pre ext : String) (S : List String) :
    ∀ fuel counter, trashNameLoop pre ext S counter fuel = none →
      ∀ M, counter ≤ M → M < counter + fuel → insertCounterName pre ext M ∈ S := by
  intro fuel
  induction fuel with
  | zero => intro counter _ M h1 h2; omega
  | succ fuel ih =>
    intro counter h M h1 h2
    simp only [trashNameLoop] at h
    by_cases hm : insertCounterName pre ext counter ∈ S
    · rw [if_pos hm] at h
      rcases Nat.eq_or_lt_of_le h1 with heq | hlt
      · rw [← heq]; exact hm
      · exact ih (counter + 1) h M hlt (by omega)
    · rw [if_neg hm] at h
      exact absurd h (by simp)

theorem trashNameLoop_some (pre ext : String) (S : List String) :
    ∀ fuel counter r, trashNameLoop pre ext S counter fuel = some r →
      r ∉ S ∧ ∃ N, counter ≤ N ∧ r = insertCounterName pre ext N ∧
        ∀ M, counter ≤ M → M < N → insertCounterName pre ext M ∈ S := by
  intro fuel
  induction fuel with
  | zero => intro counter r h; exact absurd h (by simp [trashNameLoop])
  | succ fuel ih =>
    intro counter r h
    simp only [trashNameLoop] at h
    by_cases hm : insertCounterName pre ext counter ∈ S
    · rw [if_pos hm] at h
      obtain ⟨hns, N, hN1, hN2, hN3⟩ := ih (counter + 1) r h
      refine ⟨hns, N, by omega, hN2, ?_⟩
      intro M hM1 hM2
      rcases Nat.eq_or_lt_of_le hM1 with heq | hlt
      · rw [← heq]; exact hm
      · exact hN3 M hlt hM2
    · rw [if_neg hm] at h
      simp only [Option.some.injEq] at h
      refine ⟨h ▸ hm, counter, Nat.le_refl _, h.symm, ?_⟩
      intro M hM1 hM2
      omega

theorem trashNameLoop_total (pre ext : String) (S : List String) :
    ∃ r, trashNameLoop pre ext S 2 (S.length + 1) = some r := by
  cases heq : trashNameLoop pre ext S 2 (S.length + 1) with
  | some r => exact ⟨r, rfl⟩
  | none =>
    exfalso
    have hall := trashNameLoop_none pre ext S (S.length + 1) 2 heq
    have hinj : Function.Injective (fun j : Nat => insertCounterName pre ext (2 + j)) := by
      intro a b hab
      have := insertCounterName_inj pre ext (2 + a) (2 + b) hab
      omega
    have hsub : (Finset.range (S.length + 1)).image
        (fun j => insertCounterName pre ext (2 + j)) ⊆ S.toFinset := by
      intro x hx
      simp only [Finset.mem_image, Finset.mem_range] at hx
      obtain ⟨j, hj, hxj⟩ := hx
      rw [← hxj]
      exact List.mem_toFinset.mpr (hall (2 + j) (by omega) (by omega))
    have hcard := Finset.card_le_card hsub
    rw [Finset.card_image_of_injective _ hinj, Finset.card_range] at hcard
    have := List.toFinset_card_le S
    omega

/-- Claim C7: the while loop of `getUniqueTrashName` that tries successive
integer suffixes starting at 2 terminates on every base name and every
finite set of existing names — running it with `existingNames.length + 1`
fuel always produces a result, so `getUniqueTrashName` is a total function
whose `getD` fallback is never taken. -/
theorem trashNameLoop_terminates (baseName : String) (existingNames : List String) :
    ∃ r, trashNameLoop (posixBasenameSuffix baseName (extnameModel baseName))
        (extnameModel baseName) existingNames 2 (existingNames.length + 1) = some r ∧
      getUniqueTrashName baseName existingNames =
        (if baseName ∈ existingNames then r else baseName) := by
  obtain ⟨r, hr⟩ := trashNameLoop_total
    (posixBasenameSuffix baseName (extnameModel baseName))
    (extnameModel baseName) existingNames
  refine ⟨r, hr, ?_⟩
  unfold getUniqueTrashName
  by_cases hb : baseName ∈ existingNames
  · rw [if_pos hb, if_pos hb, hr]
    rfl
  · rw [if_neg hb, if_neg hb]

/-- Claim C6: `getUniqueTrashName b S` returns `b` itself when `b` is not
among the existing names; otherwise it inserts the smallest integer
`N ≥ 2` before `b`'s extension such that the resulting `name.N.ext` is
unused; in every case the returned name is not in `S`. -/
theorem getUniqueTrashName_spec (b : String) (S : List String) :
    getUniqueTrashName b S ∉ S ∧
    (b ∉ S → getUniqueTrashName b S = b) ∧
    (b ∈ S → ∃ N, 2 ≤ N ∧
      getUniqueTrashName b S =
        insertCounterName (posixBasenameSuffix b (extnameModel b)) (extnameModel b) N ∧
      insertCounterName (posixBasenameSuffix b (extnameModel b)) (extnameModel b) N ∉ S ∧
      ∀ M, 2 ≤ M → M < N →
        insertCounterName (posixBasenameSuffix b (extnameModel b)) (extnameModel b) M ∈ S) := by
  by_cases hb : b ∈ S
  · obtain ⟨r, hr⟩ := trashNameLoop_total
      (posixBasenameSuffix b (extnameModel b)) (extnameModel b) S
    obtain ⟨hns, N, hN1, hN2, hN3⟩ := trashNameLoop_some
      (posixBasenameSuffix b (extnameModel b)) (extnameModel b) S _ 2 r hr
    have hval : getUniqueTrashName b S = r := by
      unfold getUniqueTrashName
      rw [if_pos hb, hr]
      rfl
    refine ⟨hval ▸ hns, fun h => absurd hb h, fun _ => ⟨N, hN1, ?_, hN2 ▸ hns, hN3⟩⟩
    rw [hval, hN2]
  · have hval : getUniqueTrashName b S = b := by
      unfold getUniqueTrashName
      rw [if_neg hb]
    exact ⟨by rw [hval]; exact hb, fun _ => hval, fun h => absurd h hb⟩

/-- Witness for C6 at concrete inputs. -/
theorem getUniqueTrashName_spec_witness :
    getUniqueTrashName "note.txt" ["note.txt"] ∉ ["note.txt"] ∧
    getUniqueTrashName "a.txt" ["note.txt"] = "a.txt" :=
  ⟨(getUniqueTrashName_spec "note.txt" ["note.txt"]).1,
   (getUniqueTrashName_spec "a.txt" ["note.txt"]).2.1 (by decide)⟩

/-! ### Sidecar format lemmas -/

theorem jsSplitFirstDot_iso (d : DateUTC) :
    jsSplitFirstDot (toISOStringModel d) = secondsStamp d := by
  simp [jsSplitFirstDot, jsSplitChar, toISOStringModel, isoChars, splitCharAux,
    secondsStamp, digitChar_ne_dot]

theorem wellFormed_secondsStamp (d : DateUTC) :
    wellFormedSecondsStamp (secondsStamp d) = true := by
  simp [wellFormedSecondsStamp, secondsStamp, isoChars, isDigit_digitChar_mod]

/-- Claim C8: for every trashed file, the sidecar written next to it is
exactly the three-line block `[Trash Info]`, `Path=<original absolute
path>`, `DeletionDate=<ISO-8601 timestamp at seconds precision, no
fractional part>` (newline-terminated), where the timestamp is the
seconds-precision prefix of the host's `toISOString()` and is
well-formed. -/
theorem sidecar_format (fsPath : String) (d : DateUTC)
    (hy : d.year ≤ 9999) (hmo1 : 1 ≤ d.month) (hmo2 : d.month ≤ 12)
    (hd1 : 1 ≤ d.day) (hd2 : d.day ≤ 31) (hh : d.hour ≤ 23)
    (hmi : d.minute ≤ 59) (hs : d.second ≤ 59) (hms : d.ms ≤ 999) :
    sidecarContent fsPath (toISOStringModel d) =
      jsJoin "\n" ["[Trash Info]", "Path=" ++ fsPath,
        "DeletionDate=" ++ secondsStamp d, ""] ∧
    wellFormedSecondsStamp (secondsStamp d) = true := by
  constructor
  · unfold sidecarContent
    rw [jsSplitFirstDot_iso]
  · exact wellFormed_secondsStamp d

/-- Witness for C8 at a concrete path and date. -/
theorem sidecar_format_witness :
    sidecarContent "/a/note.txt" (toISOStringModel dateSample) =
      jsJoin "\n" ["[Trash Info]", "Path=" ++ "/a/note.txt",
        "DeletionDate=" ++ secondsStamp dateSample, ""] ∧
    wellFormedSecondsStamp (secondsStamp dateSample) = true :=
  sidecar_format "/a/note.txt" dateSample (by decide) (by decide) (by decide)
    (by decide) (by decide) (by decide) (by decide) (by decide) (by decide)

/-! ### Handler-level lemmas -/

theorem clipboardFallback_ok (env : Env) (files : List Uri) (effs : List Effect)
    (clip : String) (h : clipboardFallback env = ResolveOut.ok files effs clip) :
    effs = [Effect.executeCommand "copyFilePath"] := by
  unfold clipboardFallback at h
  rcases henv : env.copyFilePathResult with _ | s
  · simp only [henv] at h
    exact ResolveOut.noConfusion h
  · simp only [henv] at h
    by_cases hs : s = ""
    · rw [if_pos hs] at h
      exact ResolveOut.noConfusion h
    · rw [if_neg hs] at h
      simp only [ResolveOut.ok.injEq] at h
      exact h.2.1.symm

theorem resolve_ok_effects (env : Env) (u : Option Uri) (us : Option (List Uri))
    (files : List Uri) (effs : List Effect) (clip : String)
    (h : resolveTargets env u us = ResolveOut.ok files effs clip) :
    effs = [] ∨ effs = [Effect.executeCommand "copyFilePath"] := by
  rcases us with _ | uris
  · rcases u with _ | x
    · simp only [resolveTargets] at h
      exact Or.inr (clipboardFallback_ok env files effs clip h)
    · simp only [resolveTargets, ResolveOut.ok.injEq] at h
      exact Or.inl h.2.1.symm
  · by_cases hl : 0 < uris.length
    · simp only [resolveTargets, hl, if_true, ResolveOut.ok.injEq] at h
      exact Or.inl h.2.1.symm
    · rcases u with _ | x
      · simp only [resolveTargets, hl, if_false] at h
        exact Or.inr (clipboardFallback_ok env files effs clip h)
      · simp only [resolveTargets, hl, if_false, ResolveOut.ok.injEq] at h
        exact Or.inl h.2.1.symm

theorem remotetrashDelete_ok (env : Env) (cr : Bool) (u : Option Uri)
    (us : Option (List Uri)) (files : List Uri) (effs : List Effect) (clip : String)
    (hres : resolveTargets env u us = ResolveOut.ok files effs clip) :
    remotetrashDelete env cr u us = afterResolve env files effs clip := by
  unfold remotetrashDelete
  rw [hres]

theorem runBatch_effects (env : Env) (files : List Uri) (effs : List Effect)
    (clip : String) :
    ∃ tail, (runBatch env files effs clip).effects = effs ++ tail := by
  unfold runBatch
  rcases hb : batchLoop env files 0 with ⟨stepEffs, exc⟩
  rcases exc with msg | ops
  · exact ⟨stepEffs ++ [Effect.showError msg], by simp⟩
  · unfold afterApply
    simp only []
    by_cases ha : env.applyEditSucceeds
    · rw [if_pos ha]
      split
      · exact ⟨stepEffs ++ [Effect.applyEdit ops true,
          Effect.showInfo (successMessage files)], by simp⟩
      · refine ⟨stepEffs ++ [Effect.applyEdit ops true,
          Effect.closeTabs ((env.tabGroups.flatMap id).filterMap (fun t =>
            match t with
            | some tu => if files.any (fun f => f.toStr = tu.toStr) then some tu else none
            | none => none)),
          Effect.showInfo (successMessage files)], by simp⟩
    · rw [if_neg ha]
      exact ⟨stepEffs ++ [Effect.applyEdit ops false,
        Effect.showError "Failed to apply workspace edit"], by simp⟩

/-- Claim C3: when the trash tool is unreachable, every invocation whose
target resolution succeeded shows the not-installed warning and performs
no destructive action — no edit is applied (so no file is moved or
renamed and no sidecar is created) and no tab is closed. -/
theorem trashGate_aborts (env : Env) (cr : Bool) (u : Option Uri)
    (us : Option (List Uri)) (files : List Uri) (effs : List Effect) (clip : String)
    (hres : resolveTargets env u us = ResolveOut.ok files effs clip)
    (hne : 0 < files.length)
    (hti : env.trashInstalled = false) :
    Effect.showWarning warnNotInstalled false [] ∈ (remotetrashDelete env cr u us).effects ∧
    noDestructive (remotetrashDelete env cr u us).effects = true := by
  rw [remotetrashDelete_ok env cr u us files effs clip hres]
  unfold afterResolve
  rw [if_neg (by omega), if_pos hti]
  rcases resolve_ok_effects env u us files effs clip hres with he | he <;> subst he <;>
    simp [noDestructive, isDestructiveEffect]

/-- Witness for C3: unreachable tool, one explicitly selected file. -/
theorem trashGate_aborts_witness :
    Effect.showWarning warnNotInstalled false []
        ∈ (remotetrashDelete envNoTool true none (some [uOne])).effects ∧
    noDestructive (remotetrashDelete envNoTool true none (some [uOne])).effects = true :=
  trashGate_aborts envNoTool true none (some [uOne]) [uOne] [] "X" rfl
    (by decide) rfl

/-- Claim C10: for every invocation that resolves a non-empty target list
and passes the availability check, the modal warning with the single
action "Move to Trash" is shown before any destructive effect, and when
the user's response is anything else the handler stops there: nothing
follows the warning and the run contains no destructive effect at all. -/
theorem confirmGate (env : Env) (cr : Bool) (u : Option Uri)
    (us : Option (List Uri)) (files : List Uri) (effs : List Effect) (clip : String)
    (hres : resolveTargets env u us = ResolveOut.ok files effs clip)
    (hne : 0 < files.length)
    (hti : env.trashInstalled = true) :
    ∃ pre post, (remotetrashDelete env cr u us).effects =
        pre ++ Effect.showWarning (confirmMessage files) true ["Move to Trash"] :: post ∧
      noDestructive pre = true ∧
      (env.confirmResponse ≠ some "Move to Trash" →
        post = [] ∧ noDestructive (remotetrashDelete env cr u us).effects = true) := by
  rw [remotetrashDelete_ok env cr u us files effs clip hres]
  unfold afterResolve
  rw [if_neg (by omega), if_neg (by simp [hti])]
  unfold afterConfirmGate
  by_cases hcf : env.confirmResponse = some "Move to Trash"
  · rw [if_pos hcf]
    obtain ⟨tail, htail⟩ := runBatch_effects env files
      (effs ++ [Effect.execCmd checkTrashInstalledCmd,
        Effect.showWarning (confirmMessage files) true ["Move to Trash"]]) clip
    refine ⟨effs ++ [Effect.execCmd checkTrashInstalledCmd], tail,
      ?_, ?_, fun h => absurd hcf h⟩
    · rw [htail]
      simp
    · rcases resolve_ok_effects env u us files effs clip hres with he | he <;>
        subst he <;> simp [noDestructive, isDestructiveEffect]
  · rw [if_neg hcf]
    refine ⟨effs ++ [Effect.execCmd checkTrashInstalledCmd], [], by simp, ?_, fun _ => ⟨rfl, ?_⟩⟩ <;>
      rcases resolve_ok_effects env u us files effs clip hres with he | he <;>
        subst he <;> simp [noDestructive, isDestructiveEffect]

/-- Witness for C10: user dismisses the confirmation dialog. -/
theorem confirmGate_witness :
    ∃ pre post, (remotetrashDelete envDismissed true none (some [uOne])).effects =
        pre ++ Effect.showWarning (confirmMessage [uOne]) true ["Move to Trash"] :: post ∧
      noDestructive pre = true ∧
      (envDismissed.confirmResponse ≠ some "Move to Trash" →
        post = [] ∧
        noDestructive (remotetrashDelete envDismissed true none (some [uOne])).effects = true) :=
  confirmGate envDismissed true none (some [uOne]) [uOne] [] "X" rfl (by decide) rfl

/-! ### Batch-loop lemmas -/

theorem batchLoop_ok (env : Env) :
    ∀ (files : List Uri) (k : Nat),
      (∀ j, j < files.length → env.stepFails (k + j) = none) →
      batchLoop env files k =
        (files.map (fun _ => Effect.readDir (getTrashPaths env.homeDir).filesDir),
         Except.ok (files.flatMap (fun f => (deleteWithWorkspaceEdit env f).2))) := by
  intro files
  induction files with
  | nil => intro k _; rfl
  | cons f rest ih =>
    intro k h
    have h0 : env.stepFails k = none := by
      have := h 0 (by simp)
      rwa [Nat.add_zero] at this
    have hrest : ∀ j, j < rest.length → env.stepFails (k + 1 + j) = none := by
      intro j hj
      have := h (j + 1) (by simp; omega)
      rwa [show k + (j + 1) = k + 1 + j by omega] at this
    simp only [batchLoop, h0, ih (k + 1) hrest]
    simp [deleteWithWorkspaceEdit]

theorem renameSources_flatMap (env : Env) (files : List Uri) :
    renameSources (files.flatMap (fun f => (deleteWithWorkspaceEdit env f).2)) = files := by
  induction files with
  | nil => rfl
  | cons f rest ih =>
    simp only [List.flatMap_cons, renameSources, List.filterMap_append]
    simp only [renameSources] at ih
    rw [ih]
    simp [deleteWithWorkspaceEdit]

theorem movedSources_readDirs (l : List Uri) (dir : String) :
    movedSources (l.map (fun _ => Effect.readDir dir)) = [] := by
  induction l with
  | nil => rfl
  | cons f rest ih => simp [movedSources]

/-- Claim C9 (amended): tab closing happens only after the move step.
The handler applies the batched WorkspaceEdit first and then closes all
tabs of deleted files in one request whose result it ignores, so the
user's response to a close prompt cannot withdraw a file from the batch:
the whole run is identical for either close response, and on a fully
successful batch every resolved target is moved. -/
theorem tabClose_after_move (env : Env) (u : Option Uri) (us : Option (List Uri))
    (files : List Uri) (effs : List Effect) (clip : String)
    (hres : resolveTargets env u us = ResolveOut.ok files effs clip)
    (hne : 0 < files.length)
    (hti : env.trashInstalled = true)
    (hcf : env.confirmResponse = some "Move to Trash")
    (hsteps : ∀ j, j < files.length → env.stepFails j = none)
    (happly : env.applyEditSucceeds = true) :
    (∀ r₁ r₂ : Bool, remotetrashDelete env r₁ u us = remotetrashDelete env r₂ u us) ∧
    movedSources (remotetrashDelete env true u us).effects = files := by
  refine ⟨fun r₁ r₂ => rfl, ?_⟩
  rw [remotetrashDelete_ok env true u us files effs clip hres]
  unfold afterResolve
  rw [if_neg (by omega), if_neg (by simp [hti])]
  unfold afterConfirmGate
  rw [if_pos hcf]
  unfold runBatch
  rw [batchLoop_ok env files 0 (by intro j hj; simpa using hsteps j hj)]
  unfold afterApply
  simp only []
  rw [if_pos happly]
  rcases resolve_ok_effects env u us files effs clip hres with he | he <;> subst he <;>
    split <;>
    simp [movedSources, movedSources_readDirs, renameSources_flatMap,
      List.flatMap_append]

/-- Claim C9 (counterexample): a three-file context-menu batch with a tab
open on the second file and the user declining the batched close request:
the second file is moved anyway — the code never removes a file from the
batch on a declined close, because closing happens only after the edit
was applied and its result is ignored. -/
theorem tabClose_counterexample :
    uTwo ∈ movedSources (remotetrashDelete envTabOpen false none
      (some [uOne, uTwo, uThree])).effects ∧
    movedSources (remotetrashDelete envTabOpen false none
      (some [uOne, uTwo, uThree])).effects = [uOne, uTwo, uThree] ∧
    Effect.closeTabs [uTwo] ∈ (remotetrashDelete envTabOpen false none
      (some [uOne, uTwo, uThree])).effects := by
  decide

/-- Witness for C9 (amended) at the counterexample scenario. -/
theorem tabClose_after_move_witness :
    (∀ r₁ r₂ : Bool, remotetrashDelete envTabOpen r₁ none (some [uOne, uTwo, uThree]) =
        remotetrashDelete envTabOpen r₂ none (some [uOne, uTwo, uThree])) ∧
    movedSources (remotetrashDelete envTabOpen true none
      (some [uOne, uTwo, uThree])).effects = [uOne, uTwo, uThree] :=
  tabClose_after_move envTabOpen none (some [uOne, uTwo, uThree])
    [uOne, uTwo, uThree] [] "X" rfl (by decide) rfl rfl (by decide) rfl

/-- Claim C2 (amended): when the per-file step fails on file 2 of a
3-file batch, the loop stops before file 3 (exactly two trash-directory
reads happen), the batched WorkspaceEdit is never applied — so no file,
file 1 included, has been moved — and exactly one error message carrying
the underlying failure's message is surfaced. -/
theorem failFast_batch (env : Env) (cr : Bool) (u : Option Uri) (us : Option (List Uri))
    (f1 f2 f3 : Uri) (effs : List Effect) (clip msg : String)
    (hres : resolveTargets env u us = ResolveOut.ok [f1, f2, f3] effs clip)
    (hti : env.trashInstalled = true)
    (hcf : env.confirmResponse = some "Move to Trash")
    (h0 : env.stepFails 0 = none)
    (h1 : env.stepFails 1 = some msg) :
    movedSources (remotetrashDelete env cr u us).effects = [] ∧
    errorMessages (remotetrashDelete env cr u us).effects = [msg] ∧
    readDirCount (remotetrashDelete env cr u us).effects = 2 := by
  rw [remotetrashDelete_ok env cr u us [f1, f2, f3] effs clip hres]
  unfold afterResolve
  rw [if_neg (by simp), if_neg (by simp [hti])]
  unfold afterConfirmGate
  rw [if_pos hcf]
  unfold runBatch
  have hloop : batchLoop env [f1, f2, f3] 0 =
      ([Effect.readDir (getTrashPaths env.homeDir).filesDir,
        Effect.readDir (getTrashPaths env.homeDir).filesDir], Except.error msg) := by
    simp [batchLoop, deleteWithWorkspaceEdit, h0, h1]
  rw [hloop]
  rcases resolve_ok_effects env u us [f1, f2, f3] effs clip hres with he | he <;> subst he <;>
    simp [movedSources, errorMessages, readDirCount]

/-- Claim C2 (counterexample): at the concrete 3-file batch whose second
step fails, nothing at all is moved — in particular file 1 is not moved,
although the claim asserts it already was; exactly one error message is
surfaced. -/
theorem failFast_counterexample :
    movedSources (remotetrashDelete envFailSecond true none
      (some [uOne, uTwo, uThree])).effects = [] ∧
    uOne ∉ movedSources (remotetrashDelete envFailSecond true none
      (some [uOne, uTwo, uThree])).effects ∧
    errorMessages (remotetrashDelete envFailSecond true none
      (some [uOne, uTwo, uThree])).effects = ["EACCES: permission denied, scandir"] := by
  decide

/-- Witness for C2 (amended) at the concrete failing batch. -/
theorem failFast_batch_witness :
    movedSources (remotetrashDelete envFailSecond false none
      (some [uOne, uTwo, uThree])).effects = [] ∧
    errorMessages (remotetrashDelete envFailSecond false none
      (some [uOne, uTwo, uThree])).effects = ["EACCES: permission denied, scandir"] ∧
    readDirCount (remotetrashDelete envFailSecond false none
      (some [uOne, uTwo, uThree])).effects = 2 :=
  failFast_batch envFailSecond false none (some [uOne, uTwo, uThree]) uOne uTwo uThree
    [] "X" "EACCES: permission denied, scandir" rfl rfl rfl rfl rfl

/-- Claim C1 (code bug): the keybinding fallback never saves or restores
the clipboard.  Starting from clipboard text "X" with selection
`/tmp/a.txt`, a fully successful run (no error surfaced) leaves the
clipboard holding the copied path, not "X" — although the README states
the original clipboard content is restored. -/
theorem clipboard_not_restored :
    envClipboard.clipboardInit = "X" ∧
    (remotetrashDelete envClipboard true none none).clipboardFinal = "/tmp/a.txt" ∧
    ¬ (remotetrashDelete envClipboard true none none).clipboardFinal = "X" ∧
    errorMessages (remotetrashDelete envClipboard true none none).effects = [] := by
  decide

/-- Claim C4 (code bug): the availability check and the per-file
invocation are hardcoded to the name `trash`.  They equal what a
configuration-honoring implementation would run only for the default
value and differ for any other configured value — the source never reads
the `remotetrash.trashCliPath` setting its README documents. -/
theorem trashTool_hardcoded :
    checkTrashInstalledCmd = specCheckCmd "trash" ∧
    deleteWithTrashCmd "/tmp/a.txt" = specInvokeCmd "trash" "/tmp/a.txt" ∧
    ¬ checkTrashInstalledCmd = specCheckCmd "gtrash" ∧
    ¬ deleteWithTrashCmd "/tmp/a.txt" = specInvokeCmd "gtrash" "/tmp/a.txt" := by
  decide

/-- Claim C5 (code bug): trashing `/a/note.txt` and `/b/note.txt` in one
batch into a trash directory already holding `note.txt` assigns the
stored name `note.2.txt` to BOTH files — the per-file collision check
reads only the unchanged on-disk listing while the edits are pending —
instead of `note.2.txt` then `note.3.txt`. -/
theorem collision_batch :
    storedNames (remotetrashDelete envCollision true none
      (some [Uri.mk "/a/note.txt", Uri.mk "/b/note.txt"])).effects =
      ["note.2.txt", "note.2.txt"] ∧
    ¬ storedNames (remotetrashDelete envCollision true none
      (some [Uri.mk "/a/note.txt", Uri.mk "/b/note.txt"])).effects =
      ["note.2.txt", "note.3.txt"] := by
  decide
